import Mathlib

/-!
Shallow embedding of the data pipeline of `stock-dashboard.py`:
`process_data`, `calculate_metrics`, `add_technical_indicators` and the
`interval_mapping` lookup table, together with the behaviour of the library
calls they delegate to (`pandas` index/timezone handling and the `ta`
moving-average indicators), and theorems checking the specification's
claims about them.  Floating-point prices are modelled as exact rationals;
a raised Python exception is modelled as `Except.error`.
-/

namespace StockDashboard

/-- Python exceptions that the modelled pipeline code can raise. -/
inductive PyError where
  | indexError
  | zeroDivisionError
  | attributeError
  | keyError
  | typeError
  deriving DecidableEq

/-- Timezones as the script uses them (`pytz` zone names). -/
inductive Tz where
  | utc
  | usEastern
  | named (s : String)
  deriving DecidableEq

/-- A `pandas` DataFrame index, as far as the script exercises it.

`datetime name tz stamps` stands for a `DatetimeIndex` called `name`
(`yfinance` names it `Date` for daily data and `Datetime` for intraday
data).  For a timezone-aware index (`tz = some _`) the stamps are the
stored absolute instants (UTC epoch values); for a naive index
(`tz = none`) they are bare wall-clock readings.  `range n` stands for the
positional `RangeIndex` that `reset_index` leaves behind. -/
inductive PIndex where
  | datetime (name : String) (tz : Option Tz) (stamps : List Int)
  | range (n : Nat)
  deriving DecidableEq

/-- A DataFrame column: numeric data, timestamps (display timezone plus the
stored stamps, as in `PIndex.datetime`), or an indicator column whose
leading entries are the NaN marker `none`. -/
inductive Column where
  | nums (vals : List ℚ)
  | times (tz : Option Tz) (stamps : List Int)
  | inds (vals : List (Option ℚ))
  deriving DecidableEq

/-- A DataFrame: an index plus labelled columns in display order. -/
structure DataFrame where
  index : PIndex
  cols : List (String × Column)
  deriving DecidableEq

/-- One row of the canonical market-data table: timestamp,
open/high/low/close prices and a volume count.  (`open` is a Lean keyword,
hence the field name `open_`.) -/
structure Bar where
  datetime : Int
  open_ : ℚ
  high : ℚ
  low : ℚ
  close : ℚ
  volume : Int
  deriving DecidableEq

/-- `data.index.tzinfo`: the timezone of a `DatetimeIndex`; a `RangeIndex`
has no `tzinfo` attribute, so the access raises `AttributeError`. -/
def tzinfo : PIndex → Except PyError (Option Tz)
  | .datetime _ tz _ => .ok tz
  | .range _ => .error .attributeError

/-- `index.tz_localize('UTC')`: attach UTC to a naive `DatetimeIndex`; the
stored stamps are unchanged (a naive wall-clock reading re-read as a UTC
instant keeps the same value).  `pandas` raises `TypeError` on an already
aware index; a `RangeIndex` has no such method. -/
def tz_localize_utc : PIndex → Except PyError PIndex
  | .datetime name none stamps => .ok (.datetime name (some .utc) stamps)
  | .datetime _ (some _) _ => .error .typeError
  | .range _ => .error .attributeError

/-- `index.tz_convert(target)`: change the display timezone of an aware
`DatetimeIndex`; the stored absolute instants are unchanged.  `pandas`
raises `TypeError` on a naive index. -/
def tz_convert (target : Tz) : PIndex → Except PyError PIndex
  | .datetime name (some _) stamps => .ok (.datetime name (some target) stamps)
  | .datetime _ none _ => .error .typeError
  | .range _ => .error .attributeError

/-- `process_data(data)` from `stock-dashboard.py`:
if the index is timezone-naive, `tz_localize('UTC')`; then
`tz_convert('US/Eastern')`; then `reset_index` (the index becomes a leading
column named after the index, and the frame gets a positional
`RangeIndex`); finally `rename(columns={'Date': 'Datetime'})`. -/
def process_data (data : DataFrame) : Except PyError DataFrame := do
  let tz ← tzinfo data.index
  let idx1 ← if tz = none then tz_localize_utc data.index else pure data.index
  let idx2 ← tz_convert Tz.usEastern idx1
  let reset : DataFrame :=
    match idx2 with
    | .datetime name tz2 stamps =>
        ⟨.range stamps.length, (name, Column.times tz2 stamps) :: data.cols⟩
    | .range n =>
        ⟨.range n, ("index", Column.nums ((List.range n).map (Nat.cast))) :: data.cols⟩
  pure ⟨reset.index,
        reset.cols.map (fun p => (if p.1 = "Date" then "Datetime" else p.1, p.2))⟩

/-- `calculate_metrics(data)` from `stock-dashboard.py`, over the canonical
Series viewed as a list of bars.  `data['Close'].iloc[-1]` raises
`IndexError` on an empty frame; the division `change / prev_close` raises
`ZeroDivisionError` when the first close is zero (only then are the
high/low/volume aggregates computed).  Returns the tuple
`(last_close, change, pct_change, high, low, volume)`. -/
def calculate_metrics (data : List Bar) : Except PyError (ℚ × ℚ × ℚ × ℚ × ℚ × Int) :=
  match data with
  | [] => .error .indexError
  | b :: bs =>
      let closes := b.close :: bs.map Bar.close
      let last_close := closes.getLast (List.cons_ne_nil _ _)
      let prev_close := b.close
      let change := last_close - prev_close
      if prev_close = 0 then .error .zeroDivisionError
      else
        .ok (last_close, change, change / prev_close * 100,
             (bs.map Bar.high).foldl max b.high,
             (bs.map Bar.low).foldl min b.low,
             (b.volume :: bs.map Bar.volume).sum)

/-- The metrics computation as the specification describes it, for
comparison with `calculate_metrics`: the percent change is guarded — it is
the undefined marker `none` when the reference close is zero — and the
remaining metrics are still produced instead of the whole computation
failing. -/
def calculate_metrics_spec (data : List Bar) :
    Except PyError (ℚ × ℚ × Option ℚ × ℚ × ℚ × Int) :=
  match data with
  | [] => .error .indexError
  | b :: bs =>
      let closes := b.close :: bs.map Bar.close
      let last_close := closes.getLast (List.cons_ne_nil _ _)
      let change := last_close - b.close
      let pct_change : Option ℚ :=
        if b.close = 0 then none else some (change / b.close * 100)
      .ok (last_close, change, pct_change,
           (bs.map Bar.high).foldl max b.high,
           (bs.map Bar.low).foldl min b.low,
           (b.volume :: bs.map Bar.volume).sum)

/-- The table after `calculate_metrics` runs: its body only reads `data`
(there is no assignment to the frame or to any of its columns), so the
post-state of the table equals the input. -/
def calculate_metrics_post (data : List Bar) : List Bar := data

/-- `ta.trend.sma_indicator(close, window)`, i.e.
`close.rolling(window, min_periods=window).mean()`: entry `i` is the NaN
marker `none` while the window has fewer than `window` observations, and
otherwise the arithmetic mean of the `window` closes ending at `i`. -/
def sma_indicator (window : Nat) (close : List ℚ) : List (Option ℚ) :=
  (List.range close.length).map (fun i =>
    if i + 1 < window then none
    else some (((close.take (i + 1)).drop (i + 1 - window)).sum / window))

/-- `ta.trend.ema_indicator(close, window)`, i.e.
`close.ewm(span=window, min_periods=window, adjust=False).mean()`: the
running values start from the first close (`y 0 = close 0`) and follow
`y i = close i * α + y (i-1) * (1 - α)` with `α = 2 / (window + 1)`; the
first `window - 1` entries are masked to the NaN marker `none`. -/
def ema_indicator (window : Nat) (close : List ℚ) : List (Option ℚ) :=
  let α : ℚ := 2 / (window + 1)
  let vals : List ℚ :=
    match close with
    | [] => []
    | x :: xs => List.scanl (fun y c => c * α + y * (1 - α)) x xs
  (List.range close.length).map (fun i =>
    if i + 1 < window then none else vals[i]?)

/-- Closed form of the `adjust=False` exponential recurrence:
`emaRec α x xs 0 = x` and
`emaRec α x xs (i+1) = xs[i] * α + emaRec α x xs i * (1 - α)`. -/
def emaRec (α x : ℚ) (xs : List ℚ) : Nat → ℚ
  | 0 => x
  | i + 1 => xs.getD i 0 * α + emaRec α x xs i * (1 - α)

/-- Column assignment `data[name] = c`: replace the column in place when
the label already exists, otherwise append it at the end. -/
def setCol (data : DataFrame) (name : String) (c : Column) : DataFrame :=
  if (data.cols.lookup name).isSome then
    { data with cols := data.cols.map (fun p => if p.1 = name then (p.1, c) else p) }
  else
    { data with cols := data.cols ++ [(name, c)] }

/-- `add_technical_indicators(data)` from `stock-dashboard.py`: assigns
`data['SMA_20']` and `data['EMA_20']` from the close column (a missing
`Close` column would raise `KeyError`). -/
def add_technical_indicators (data : DataFrame) : Except PyError DataFrame :=
  match data.cols.lookup "Close" with
  | some (Column.nums close) =>
      let d1 := setCol data "SMA_20" (Column.inds (sma_indicator 20 close))
      let d2 := setCol d1 "EMA_20" (Column.inds (ema_indicator 20 close))
      .ok d2
  | some _ => .error .typeError
  | none => .error .keyError

/-- The `interval_mapping` dictionary of `stock-dashboard.py`, in source
order; dictionary access `interval_mapping[p]` is association-list lookup. -/
def interval_mapping : List (String × String) :=
  [("1d", "1m"), ("1wk", "30m"), ("1mo", "1d"), ("1y", "1wk"), ("max", "1wk")]


/-! ## Helper lemmas -/

theorem le_foldl_max (l : List ℚ) (a : ℚ) : a ≤ l.foldl max a := by
  induction l generalizing a with
  | nil => exact le_refl a
  | cons x xs ih => exact le_trans (le_max_left a x) (ih (max a x))

theorem mem_le_foldl_max {x : ℚ} {l : List ℚ} (a : ℚ) (h : x ∈ l) :
    x ≤ l.foldl max a := by
  induction l generalizing a with
  | nil => cases h
  | cons y ys ih =>
    rcases List.mem_cons.mp h with rfl | hmem
    · exact le_trans (le_max_right a x) (le_foldl_max ys (max a x))
    · exact ih (max a y) hmem

theorem foldl_min_le (l : List ℚ) (a : ℚ) : l.foldl min a ≤ a := by
  induction l generalizing a with
  | nil => exact le_refl a
  | cons x xs ih => exact le_trans (ih (min a x)) (min_le_left a x)

theorem foldl_min_le_mem {x : ℚ} {l : List ℚ} (a : ℚ) (h : x ∈ l) :
    l.foldl min a ≤ x := by
  induction l generalizing a with
  | nil => cases h
  | cons y ys ih =>
    rcases List.mem_cons.mp h with rfl | hmem
    · exact le_trans (foldl_min_le ys (min a x)) (min_le_right a x)
    · exact ih (min a y) hmem

theorem sum_take_getD (l : List ℚ) : ∀ w, w ≤ l.length →
    (l.take w).sum = ∑ j in Finset.range w, l.getD j 0 := by
  intro w
  induction w with
  | zero => intro _; simp
  | succ n ih =>
    intro h
    have hn : n < l.length := Nat.lt_of_succ_le h
    rw [List.take_succ, List.sum_append, ih (Nat.le_of_lt hn), Finset.sum_range_succ]
    simp [List.getElem?_eq_getElem hn]

theorem sum_window (l : List ℚ) (a w : Nat) (h : a + w ≤ l.length) :
    ((l.take (a + w)).drop a).sum = ∑ j in Finset.range w, l.getD (a + j) 0 := by
  have h1 : (l.take (a + w)).drop a = (l.drop a).take w := by
    rw [List.drop_take]
    congr 1
    omega
  have h2 : w ≤ (l.drop a).length := by
    rw [List.length_drop]
    omega
  rw [h1, sum_take_getD _ w h2]
  refine Finset.sum_congr rfl ?_
  intro j hj
  simp [List.getD_eq_getElem?_getD, List.getElem?_drop]

theorem emaRec_cons (α x c : ℚ) (rest : List ℚ) :
    ∀ j, emaRec α x (c :: rest) (j + 1) = emaRec α (c * α + x * (1 - α)) rest j := by
  intro j
  induction j with
  | zero => simp [emaRec]
  | succ n ih =>
    have h1 : emaRec α x (c :: rest) (n + 1 + 1) =
        (c :: rest).getD (n + 1) 0 * α + emaRec α x (c :: rest) (n + 1) * (1 - α) := rfl
    have h2 : emaRec α (c * α + x * (1 - α)) rest (n + 1) =
        rest.getD n 0 * α + emaRec α (c * α + x * (1 - α)) rest n * (1 - α) := rfl
    rw [h1, h2, ih]
    rfl

theorem scanl_ema_getElem? (α x : ℚ) (xs : List ℚ) :
    ∀ i, i < xs.length + 1 →
      (List.scanl (fun y c => c * α + y * (1 - α)) x xs)[i]? = some (emaRec α x xs i) := by
  induction xs generalizing x with
  | nil =>
    intro i hi
    simp only [List.length_nil] at hi
    have h0 : i = 0 := by omega
    subst h0
    rfl
  | cons c rest ih =>
    intro i hi
    cases i with
    | zero => simp [emaRec]
    | succ j =>
      have hj : j < rest.length + 1 := by
        simpa [Nat.succ_lt_succ_iff] using hi
      rw [List.scanl_cons]
      have : ([x] ++ List.scanl (fun y c => c * α + y * (1 - α)) (c * α + x * (1 - α)) rest)[j + 1]? =
          (List.scanl (fun y c => c * α + y * (1 - α)) (c * α + x * (1 - α)) rest)[j]? := by
        simp
      rw [this, ih _ j hj]
      congr 1
      exact (emaRec_cons α x c rest j).symm

/-! ## Claim theorems -/

/-- C1: on the empty Series `calculate_metrics` fails (the first `iloc`
access on the empty close column raises — the spec's "EmptyInputError"),
and on every non-empty Series of valid bars (positive closes, as the
spec's data model requires of prices) it succeeds and returns the full
metrics tuple. -/
theorem claim_C1 :
    calculate_metrics [] = .error .indexError ∧
    ∀ data : List Bar, data ≠ [] → (∀ b ∈ data, 0 < b.close) →
      ∃ m, calculate_metrics data = .ok m := by
  refine ⟨rfl, ?_⟩
  intro data hne hpos
  match data with
  | [] => exact absurd rfl hne
  | b :: bs =>
    have hz : b.close ≠ 0 := ne_of_gt (hpos b (List.mem_cons_self b bs))
    cases hres : calculate_metrics (b :: bs) with
    | error e => simp [calculate_metrics, hz] at hres
    | ok m => exact ⟨m, rfl⟩

theorem claim_C1_witness :
    ∃ m, calculate_metrics [⟨0, 1, 1, 1, 1, 1⟩] = .ok m := by
  exact claim_C1.2 [⟨0, 1, 1, 1, 1, 1⟩] (by simp) (by norm_num)

/-- C2 (amended): there is no guard — when the close of the first bar is
zero, `calculate_metrics` performs the division and the whole computation
fails with `ZeroDivisionError`. -/
theorem claim_C2 (b : Bar) (bs : List Bar) (h : b.close = 0) :
    calculate_metrics (b :: bs) = .error .zeroDivisionError := by
  simp [calculate_metrics, h]

theorem claim_C2_witness :
    calculate_metrics [⟨0, 5, 6, 4, 0, 7⟩] = .error .zeroDivisionError :=
  claim_C2 ⟨0, 5, 6, 4, 0, 7⟩ [] rfl

/-- C2 counterexample: at a concrete Series whose first close is zero the
code aborts with the `ZeroDivisionError` of the unguarded division, while
the guarded computation described by the spec still returns the remaining
metrics with an undefined percent change. -/
theorem claim_C2_counterexample :
    calculate_metrics [⟨0, 0, 0, 0, 0, 0⟩, ⟨1, 1, 1, 1, 1, 1⟩] =
      .error .zeroDivisionError ∧
    calculate_metrics_spec [⟨0, 0, 0, 0, 0, 0⟩, ⟨1, 1, 1, 1, 1, 1⟩] =
      .ok (1, 1, none, 1, 0, 1) := by
  constructor
  · norm_num [calculate_metrics]
  · norm_num [calculate_metrics_spec, List.getLast]

/-- C4 counterexample: `process_data` is not idempotent — applied to a
concrete already-canonical frame (positional index, `Datetime` column) it
raises `AttributeError` instead of returning the frame unchanged. -/
theorem claim_C4_counterexample :
    process_data ⟨.range 2, [("Datetime", Column.times (some Tz.usEastern) [0, 1]),
      ("Close", Column.nums [1, 2])]⟩ = .error .attributeError := rfl

/-- C4 (amended): `process_data` is not idempotent; on any frame whose
index is already the positional `RangeIndex` produced by normalization
(as every canonical frame's is), the `tzinfo` attribute access fails with
`AttributeError`. -/
theorem claim_C4 (n : Nat) (cols : List (String × Column)) :
    process_data ⟨.range n, cols⟩ = .error .attributeError := rfl

/-- C7: on every provider-form frame (a `DatetimeIndex` over arbitrary
timezone state), `process_data` coerces the timestamps to US/Eastern by
the two-case rule — a naive index is first localized to UTC (its stamps
re-read, unchanged, as UTC instants) and then converted, an aware index is
converted directly (stored instants unchanged) — and the stamps emerge in
the `Datetime` column in their original order, with all other columns'
values untouched. -/
theorem claim_C7 (name : String) (tz : Option Tz) (stamps : List Int)
    (cols : List (String × Column)) :
    process_data ⟨.datetime name tz stamps, cols⟩ =
      .ok ⟨.range stamps.length,
           ((if name = "Date" then "Datetime" else name),
             Column.times (some Tz.usEastern) stamps) ::
             cols.map (fun p => ((if p.1 = "Date" then "Datetime" else p.1), p.2))⟩ := by
  cases tz <;> rfl

/-- C5: the period-to-interval lookup maps exactly `1d ↦ 1m`,
`1wk ↦ 30m`, `1mo ↦ 1d`, `1y ↦ 1wk` and `max ↦ 1wk`, and nothing else. -/
theorem claim_C5 (p i : String) :
    interval_mapping.lookup p = some i ↔
      (p = "1d" ∧ i = "1m") ∨ (p = "1wk" ∧ i = "30m") ∨ (p = "1mo" ∧ i = "1d") ∨
      (p = "1y" ∧ i = "1wk") ∨ (p = "max" ∧ i = "1wk") := by
  simp only [interval_mapping, List.lookup_cons, List.lookup_nil]
  cases h1 : p == "1d" <;> cases h2 : p == "1wk" <;> cases h3 : p == "1mo" <;>
    cases h4 : p == "1y" <;> cases h5 : p == "max" <;>
    simp_all [beq_iff_eq, beq_eq_false_iff_ne] <;> tauto
/-- C6: for every close series, the SMA column `add_technical_indicators`
computes has the input's length, its first `W − 1 = 19` entries are the
undefined marker `none`, and every entry at an index `i ≥ 19` is the
arithmetic mean of the 20 closes ending at `i`. -/
theorem claim_C6 (close : List ℚ) :
    (sma_indicator 20 close).length = close.length ∧
    (∀ i, i < 19 → i < close.length → (sma_indicator 20 close)[i]? = some none) ∧
    (∀ i, 19 ≤ i → i < close.length →
      (sma_indicator 20 close)[i]? =
        some (some ((∑ j in Finset.range 20, close.getD (i - 19 + j) 0) / 20))) := by
  refine ⟨by simp [sma_indicator], ?_, ?_⟩
  · intro i hi hlen
    have hc : i + 1 < 20 := by omega
    simp [sma_indicator, List.getElem?_range hlen, hc]
  · intro i hi hlen
    have hnot : ¬ (i + 1 < 20) := by omega
    have ha : i + 1 - 20 = i - 19 := by omega
    have hsum := sum_window close (i - 19) 20 (by omega)
    rw [show i - 19 + 20 = i + 1 by omega] at hsum
    simp only [sma_indicator, List.getElem?_map, List.getElem?_range hlen,
      Option.map_some']
    rw [if_neg hnot, ha, hsum]
    norm_num

theorem claim_C6_witness :
    (sma_indicator 20 [0, 1, 2, 3, 4, 5, 6, 7, 8, 9,
        10, 11, 12, 13, 14, 15, 16, 17, 18, (19 : ℚ)])[19]? =
      some (some ((∑ j in Finset.range 20,
        ([0, 1, 2, 3, 4, 5, 6, 7, 8, 9,
          10, 11, 12, 13, 14, 15, 16, 17, 18, (19 : ℚ)]).getD (19 - 19 + j) 0) / 20)) :=
  (claim_C6 [0, 1, 2, 3, 4, 5, 6, 7, 8, 9,
      10, 11, 12, 13, 14, 15, 16, 17, 18, (19 : ℚ)]).2.2 19 (by norm_num) (by norm_num)

/-- C3 (amended): the EMA column is first-value seeded, not SMA seeded:
its running values start at the first close (`emaRec α x xs 0 = x`) and
follow the recurrence `EMA i = close i * α + EMA (i−1) * (1−α)` with
`α = 2/21`; entries at indices below `W − 1 = 19` are masked to the
undefined marker `none`, and from index 19 on the entry is the recurrence
value — which in general differs from the simple mean of the first 20
closes. -/
theorem claim_C3 (x : ℚ) (xs : List ℚ) (i : Nat) (h : i < xs.length + 1) :
    (ema_indicator 20 (x :: xs)).length = xs.length + 1 ∧
    (ema_indicator 20 (x :: xs))[i]? =
      some (if i + 1 < 20 then none else some (emaRec (2 / 21) x xs i)) := by
  constructor
  · simp [ema_indicator]
  · have hlen : i < (x :: xs).length := by simpa using h
    have hα : (2 : ℚ) / (↑(20 : Nat) + 1) = 2 / 21 := by norm_num
    simp only [ema_indicator, List.getElem?_map, List.getElem?_range hlen,
      Option.map_some']
    by_cases hc : i + 1 < 20
    · simp [hc]
    · simp only [hc, if_false]
      rw [hα, scanl_ema_getElem? (2 / 21) x xs i h]

theorem claim_C3_witness :
    (ema_indicator 20 ((0 : ℚ) :: (List.replicate 18 (0 : ℚ) ++ [20])))[19]? =
      some (some (emaRec (2 / 21) 0 (List.replicate 18 (0 : ℚ) ++ [20]) 19)) := by
  simpa using (claim_C3 0 (List.replicate 18 (0 : ℚ) ++ [20]) 19 (by simp)).2

/-- C3 counterexample: on the concrete close series of nineteen zeros
followed by 20, the EMA entry at index 19 is `40/21` (first-value seeded
recurrence) while the SMA entry at index 19 is `1` (simple mean of the
first 20 closes), so the claimed shared seed fails. -/
theorem claim_C3_counterexample :
    (ema_indicator 20 (List.replicate 19 (0 : ℚ) ++ [20]))[19]? ≠
      (sma_indicator 20 (List.replicate 19 (0 : ℚ) ++ [20]))[19]? := by
  norm_num [ema_indicator, sma_indicator, List.range_succ, List.scanl, List.replicate]

/-- C8: whenever `calculate_metrics` returns a metrics tuple, its high is
an upper bound on every bar's high, its low a lower bound on every bar's
low, and its volume the sum of the bars' volumes. -/
theorem claim_C8 (b : Bar) (bs : List Bar) (lc ch pc hi lo : ℚ) (vol : Int)
    (h : calculate_metrics (b :: bs) = .ok (lc, ch, pc, hi, lo, vol)) :
    (∀ x ∈ b :: bs, x.high ≤ hi ∧ lo ≤ x.low) ∧
    vol = ((b :: bs).map Bar.volume).sum := by
  by_cases hz : b.close = 0
  · simp [calculate_metrics, hz] at h
  · simp only [calculate_metrics, hz, if_false, Except.ok.injEq, Prod.mk.injEq] at h
    obtain ⟨h1, h2, h3, h4, h5, h6⟩ := h
    refine ⟨?_, ?_⟩
    · intro x hx
      rcases List.mem_cons.mp hx with rfl | hmem
      · exact ⟨h4 ▸ le_foldl_max (bs.map Bar.high) x.high,
               h5 ▸ foldl_min_le (bs.map Bar.low) x.low⟩
      · exact ⟨h4 ▸ mem_le_foldl_max b.high (List.mem_map_of_mem Bar.high hmem),
               h5 ▸ foldl_min_le_mem b.low (List.mem_map_of_mem Bar.low hmem)⟩
    · rw [← h6]
      simp
theorem claim_C8_witness :
    (Bar.mk 0 1 5 1 2 3).high ≤ 5 ∧ (1 : ℚ) ≤ (Bar.mk 0 1 5 1 2 3).low :=
  (claim_C8 ⟨0, 1, 5, 1, 2, 3⟩ [] 2 0 0 5 1 3
      (by norm_num [calculate_metrics, List.getLast])).1
    ⟨0, 1, 5, 1, 2, 3⟩ (List.mem_singleton.mpr rfl)

/-- C9: whenever `calculate_metrics` returns a metrics tuple (so the
reference close is nonzero), the percent change is zero exactly when the
last close equals the first close; and on the concrete two-bar scenario
with reference close 100 and last close 110 it returns change 10 and
percent change 10. -/
theorem claim_C9 :
    (∀ (b : Bar) (bs : List Bar) (lc ch pc hi lo : ℚ) (vol : Int),
        calculate_metrics (b :: bs) = .ok (lc, ch, pc, hi, lo, vol) →
        (pc = 0 ↔ lc = b.close)) ∧
    calculate_metrics [⟨0, 100, 100, 100, 100, 0⟩, ⟨1, 110, 110, 110, 110, 0⟩] =
      .ok (110, 10, 10, 110, 100, 0) := by
  constructor
  · intro b bs lc ch pc hi lo vol h
    by_cases hz : b.close = 0
    · simp [calculate_metrics, hz] at h
    · simp only [calculate_metrics, hz, if_false, Except.ok.injEq, Prod.mk.injEq] at h
      obtain ⟨h1, h2, h3, _, _, _⟩ := h
      rw [← h1, ← h3]
      constructor
      · intro h0
        rcases mul_eq_zero.mp h0 with hd | h100
        · have := (div_eq_zero_iff.mp hd).resolve_right hz
          linarith [sub_eq_zero.mp this]
        · norm_num at h100
      · intro he
        rw [he]
        simp
  · norm_num [calculate_metrics, List.getLast]

theorem claim_C9_witness :
    (0 : ℚ) = 0 ↔ (4 : ℚ) = (Bar.mk 0 4 4 4 4 7).close :=
  claim_C9.1 ⟨0, 4, 4, 4, 4, 7⟩ [] 4 0 0 4 4 7
    (by norm_num [calculate_metrics, List.getLast])

/-- C10: when the frame has a numeric `Close` column and no indicator
columns yet, `add_technical_indicators` appends exactly the `SMA_20` and
`EMA_20` columns, leaving the index (row order) and every pre-existing
column's label and values unchanged; and `calculate_metrics` leaves its
input table entirely unchanged (its body only reads the frame). -/
theorem claim_C10 (df : DataFrame) (close : List ℚ)
    (hClose : df.cols.lookup "Close" = some (Column.nums close))
    (hS : df.cols.lookup "SMA_20" = none)
    (hE : df.cols.lookup "EMA_20" = none) :
    add_technical_indicators df =
      .ok ⟨df.index, df.cols ++ [("SMA_20", Column.inds (sma_indicator 20 close)),
                                 ("EMA_20", Column.inds (ema_indicator 20 close))]⟩ ∧
    ∀ data : List Bar, calculate_metrics_post data = data := by
  constructor
  · have hE' : (df.cols ++ [("SMA_20", Column.inds (sma_indicator 20 close))]).lookup
        "EMA_20" = none := by
      rw [List.lookup_append, hE]
      rfl
    simp only [add_technical_indicators, hClose, setCol, hS, hE', Option.isSome_none,
      Bool.false_eq_true, if_false, List.append_assoc]
    rfl
  · intro data
    rfl

theorem claim_C10_witness :
    add_technical_indicators ⟨.range 1, [("Close", Column.nums [1])]⟩ =
      .ok ⟨.range 1, [("Close", Column.nums [1]),
                      ("SMA_20", Column.inds (sma_indicator 20 [1])),
                      ("EMA_20", Column.inds (ema_indicator 20 [1]))]⟩ :=
  (claim_C10 ⟨.range 1, [("Close", Column.nums [1])]⟩ [1] rfl rfl rfl).1

end StockDashboard
